import Mathlib

/-!
Verification of the core logic of the MCP LaTeX server (`latex_server.py`).

Document text is embedded as `List Char`.  Python string primitives used by
the server (`str.replace`, `str.join`, `str.splitlines`, `list.insert`,
non-overlapping occurrence counting, and the regex scans
`\\cmd\{([^}]+)\}` driven by `re.findall`) are given executable models.
Recursive scanners take an explicit fuel argument (always instantiated with
the length of the scanned text, which bounds the number of scan steps) so
that all definitions reduce by kernel computation.
-/

set_option maxHeartbeats 1000000

/-- Python `sep.join(parts)`: parts interleaved with `sep`, nothing trailing. -/
def pyJoin (sep : List Char) : List (List Char) → List Char
  | [] => []
  | [x] => x
  | x :: y :: xs => x ++ sep ++ pyJoin sep (y :: xs)

/-- Python `content.replace(search, new)` for the non-empty `search` the server
passes (the `replace` branch first rejects a falsy `search_text`): scan left to
right, replacing every non-overlapping occurrence.  `fuel` bounds scan steps. -/
def pyReplaceF (s n : List Char) : Nat → List Char → List Char
  | _, [] => []
  | 0, t => t
  | fuel + 1, c :: cs =>
    if s ≠ [] ∧ s.isPrefixOf (c :: cs) then
      n ++ pyReplaceF s n fuel ((c :: cs).drop s.length)
    else
      c :: pyReplaceF s n fuel cs

def pyReplace (s n t : List Char) : List Char := pyReplaceF s n t.length t

/-- Python `content.split(search)` for non-empty `search`: the gap segments
between the non-overlapping occurrences that `replace` rewrites. -/
def pySplitF (s : List Char) : Nat → List Char → List (List Char)
  | _, [] => [[]]
  | 0, t => [t]
  | fuel + 1, c :: cs =>
    if s ≠ [] ∧ s.isPrefixOf (c :: cs) then
      [] :: pySplitF s fuel ((c :: cs).drop s.length)
    else
      match pySplitF s fuel cs with
      | [] => [[c]]
      | h :: t => (c :: h) :: t

def pySplit (s t : List Char) : List (List Char) := pySplitF s t.length t

/-- Python `content.count(search)` for non-empty `search`: the number of
non-overlapping occurrences, exactly the ones `replace` rewrites. -/
def countOccF (s : List Char) : Nat → List Char → Nat
  | _, [] => 0
  | 0, _ => 0
  | fuel + 1, c :: cs =>
    if s ≠ [] ∧ s.isPrefixOf (c :: cs) then
      countOccF s fuel ((c :: cs).drop s.length) + 1
    else
      countOccF s fuel cs

def countOcc (s t : List Char) : Nat := countOccF s t.length t

/-- Characters Python `str.splitlines` treats as line boundaries. -/
def isLineBreak (c : Char) : Bool :=
  c = '\n' ∨ c = '\r' ∨ c = '\x0b' ∨ c = '\x0c' ∨
  c = '\x1c' ∨ c = '\x1d' ∨ c = '\x1e' ∨ c = '\x85' ∨
  c = '\u2028' ∨ c = '\u2029'

/-- Python `content.splitlines()`, used by the line-number insert paths of
`_edit_latex_file`; `\r\n` counts as a single break, and a trailing break
produces no trailing empty line. -/
def pySplitlinesF : Nat → List Char → List (List Char)
  | _, [] => []
  | 0, t => [t]
  | fuel + 1, c :: cs =>
    if isLineBreak c then
      match c, cs with
      | '\r', '\n' :: rest => [] :: pySplitlinesF fuel rest
      | _, _ => [] :: pySplitlinesF fuel cs
    else
      match pySplitlinesF fuel cs with
      | [] => [[c]]
      | l :: ls => (c :: l) :: ls

def pySplitlines (t : List Char) : List (List Char) := pySplitlinesF t.length t

/-- Python `lines.insert(i, x)` (0-based, clamping at the end like Python). -/
def pyInsert (x : List Char) : Nat → List (List Char) → List (List Char)
  | _, [] => [x]
  | 0, l => x :: l
  | n + 1, a :: l => a :: pyInsert x n l

/-- Scanner for the regex `CMD\{([^}]+)\}` at the head of `t`: the literal
command followed by `{`, a non-empty maximal run of non-`}` characters
(the capture), and the closing `}`.  Returns the capture and the remainder
after the match, as `re.findall` resumes after a match. -/
def tryCmdArg (cmd : List Char) (t : List Char) : Option (List Char × List Char) :=
  if (cmd ++ ['\x7b']).isPrefixOf t then
    let rest := t.drop (cmd.length + 1)
    let cap := rest.takeWhile (fun c => c ≠ '\x7d')
    if cap = [] then none
    else if cap.length < rest.length then some (cap, rest.drop (cap.length + 1))
    else none
  else none

/-- After a failed match attempt the scan advances one position; after a
success it resumes after the match, so each step consumes at least one
character and `t.length` fuel suffices. -/
def findCmdArgsF (cmd : List Char) : Nat → List Char → List (List Char)
  | _, [] => []
  | 0, _ => []
  | fuel + 1, c :: cs =>
    match tryCmdArg cmd (c :: cs) with
    | some (cap, rest) => cap :: findCmdArgsF cmd fuel rest
    | none => findCmdArgsF cmd fuel cs

/-- Model of `re.findall(r'CMD\{([^}]+)\}', content)`: all captures in
document order, scanning left to right. -/
def findCmdArgs (cmd : List Char) (t : List Char) : List (List Char) :=
  findCmdArgsF cmd t.length t

/-- First position after the first occurrence of `f` in `t` (the remainder
of `t` after that occurrence), or `none` when `f` does not occur. -/
def dropAfterFirst (f : List Char) : List Char → Option (List Char)
  | [] => if f = [] then some [] else none
  | c :: cs =>
    if f.isPrefixOf (c :: cs) then some ((c :: cs).drop f.length)
    else dropAfterFirst f cs

/-- Python `search in content` (substring test). -/
def containsSub (f t : List Char) : Bool := (dropAfterFirst f t).isSome

/-! ## Template builder (`_create_latex_template`) -/

/-- The three implicit packages prepended to caller-supplied ones. -/
def defaultPackages : List (List Char) :=
  ["inputenc".toList, "fontenc".toList, "babel".toList]

/-- One `\usepackage` line: the three implicit names get their canonical
bracketed form, anything else is rendered bare. -/
def renderPackage (p : List Char) : List Char :=
  if p = "inputenc".toList then "\\usepackage[utf8]{inputenc}".toList
  else if p = "fontenc".toList then "\\usepackage[T1]{fontenc}".toList
  else if p = "babel".toList then "\\usepackage[english]{babel}".toList
  else "\\usepackage\x7b".toList ++ p ++ ['\x7d']

/-- The `template_parts` list built by `_create_latex_template`, in the
exact append order of the source (empty strings are falsy in Python, hence
the `≠ []` guards). -/
def createLatexParts (documentType title author date content : List Char)
    (packages : List (List Char)) (geometry : List Char) : List (List Char) :=
  ["\\documentclass\x7b".toList ++ documentType ++ ['\x7d']]
  ++ (if geometry ≠ [] then
        ["\\usepackage[".toList ++ geometry ++ "]{geometry}".toList] else [])
  ++ (defaultPackages ++ packages).map renderPackage
  ++ (if title ≠ [] then ["\\title\x7b".toList ++ title ++ ['\x7d']] else [])
  ++ (if author ≠ [] then ["\\author\x7b".toList ++ author ++ ['\x7d']] else [])
  ++ (if date ≠ [] then ["\\date\x7b".toList ++ date ++ ['\x7d']] else [])
  ++ ["\\begin{document}".toList]
  ++ (if title ≠ [] then ["\\maketitle".toList] else [])
  ++ [if content ≠ [] then content else "% Your content here".toList]
  ++ ["\\end{document}".toList]

/-- Function `_create_latex_template`: the parts joined by blank lines. -/
def createLatexTemplate (documentType title author date content : List Char)
    (packages : List (List Char)) (geometry : List Char) : List Char :=
  pyJoin "\n\n".toList
    (createLatexParts documentType title author date content packages geometry)

/-- The structured argument record of `create_latex_file` (§3 TemplateSpec). -/
structure TemplateSpec where
  documentType : List Char
  title : List Char
  author : List Char
  date : List Char
  content : List Char
  packages : List (List Char)
  geometry : List Char

/-- Builder entry `TemplateBuilder.build`: the template as a function of the spec alone. -/
def buildTemplate (s : TemplateSpec) : List Char :=
  createLatexTemplate s.documentType s.title s.author s.date s.content
    s.packages s.geometry

/-! ## Path resolution (`_get_file_path`) and the filesystem model

Paths are lists of components.  `Path.resolve()` is modelled as `..`/`.`
elimination on components (symlinks are not modelled; the source does not
treat them specially either).  The server keys its file operations by the
resolved form of the requested path. -/

/-- A user-supplied path: the raw string (used in the escape message),
whether it is absolute, and its components. -/
structure PyPath where
  raw : List Char
  absolute : Bool
  comps : List String

/-- Component-level `Path.resolve()`: drop `.`, let `..` pop (staying at the
root when already there). -/
def normComps (comps : List String) : List String :=
  comps.foldl (fun acc c =>
    if c = "." then acc else if c = ".." then acc.dropLast else acc ++ [c]) []

/-- Resolved absolute form of a request against the configured base path
(itself already resolved): absolute paths are taken as-is, relative ones are
joined to the base, then canonicalized. -/
def resolveReq (basePath : List String) (p : PyPath) : List String :=
  normComps (if p.absolute then p.comps else basePath ++ p.comps)

/-- POSIX rendering of a resolved path, for messages. -/
def renderPath (p : List String) : List Char :=
  '/' :: pyJoin ['/'] (p.map String.toList)

/-- Resolver `_get_file_path`: the allowed root is the parent of the base path;
`relative_to` succeeds exactly when the allowed root's components are a
prefix of the resolved path's components.  On failure the `ValueError`
message is returned, on success the (resolved) target path. -/
def getFilePath (basePath : List String) (p : PyPath) :
    Except (List Char) (List String) :=
  let allowed := basePath.dropLast
  let resolved := resolveReq basePath p
  if allowed.isPrefixOf resolved then .ok resolved
  else
    .error ("Path ".toList ++ p.raw ++
      " is outside the allowed base path (".toList ++ renderPath allowed ++ [')'])

/-- The filesystem: an association list from resolved paths to file text
(later entries shadowed by earlier ones; a write conses a fresh entry). -/
def FS : Type := List (List String × List Char)

instance : DecidableEq FS := by unfold FS; infer_instance

def fsRead (fs : FS) (p : List String) : Option (List Char) :=
  (fs.find? (fun e => e.1 = p)).map (fun e => e.2)

def fsWrite (fs : FS) (p : List String) (c : List Char) : FS :=
  (p, c) :: fs

/-- Filesystem accesses an operation performs, in order. -/
inductive FSEvent where
  | statEv (p : List String)
  | readEv (p : List String)
  | writeEv (p : List String) (content : List Char)
  | mkdirEv (p : List String)
  | globEv (p : List String)
deriving DecidableEq

/-- Result of one tool handler: the returned `TextContent` text, tagged by
whether it came from an error return (`.error`) or the success return
(`.ok`), plus the updated filesystem and the accesses performed. -/
def OpResult : Type := Except (List Char) (List Char) × FS × List FSEvent

deriving instance DecidableEq for Except

instance : DecidableEq OpResult := by unfold OpResult; infer_instance

/-! ## `_edit_latex_file` core -/

/-- The `append` transform: `content + "\n" + new_text`. -/
def appendEdit (content newText : List Char) : List Char :=
  content ++ '\n' :: newText

/-- The `prepend` transform: `new_text + "\n" + content`. -/
def prependEdit (content newText : List Char) : List Char :=
  newText ++ '\n' :: content

/-- The branch structure of `_edit_latex_file` after the file has been read:
Python's falsiness makes `None` and `""` take the same branches, and the
line-number path requires `1 <= line_number <= len(lines)`. -/
def editCore (content operation newText : List Char)
    (searchText : Option (List Char)) (lineNumber : Option Int) :
    Except (List Char) (List Char) :=
  let lines := pySplitlines content
  if operation = "replace".toList then
    match searchText with
    | some (c :: cs) => .ok (pyReplace (c :: cs) newText content)
    | _ => .error "search_text is required for replace operation".toList
  else if operation = "insert_before".toList then
    match searchText with
    | some (c :: cs) =>
        .ok (pyReplace (c :: cs) (newText ++ '\n' :: (c :: cs)) content)
    | _ =>
      match lineNumber with
      | some ln =>
          if 1 ≤ ln ∧ ln ≤ (lines.length : Int) then
            .ok (pyJoin ['\n'] (pyInsert newText (ln - 1).toNat lines))
          else .error "search_text or valid line_number is required".toList
      | none => .error "search_text or valid line_number is required".toList
  else if operation = "insert_after".toList then
    match searchText with
    | some (c :: cs) =>
        .ok (pyReplace (c :: cs) ((c :: cs) ++ '\n' :: newText) content)
    | _ =>
      match lineNumber with
      | some ln =>
          if 1 ≤ ln ∧ ln ≤ (lines.length : Int) then
            .ok (pyJoin ['\n'] (pyInsert newText ln.toNat lines))
          else .error "search_text or valid line_number is required".toList
      | none => .error "search_text or valid line_number is required".toList
  else if operation = "append".toList then .ok (appendEdit content newText)
  else if operation = "prepend".toList then .ok (prependEdit content newText)
  else .error ("Unknown operation: ".toList ++ operation)

/-! ## Validator (`_validate_latex` content checks) -/

/-- The environment-count segment of the validation issues: the source
iterates over the `begins` list itself, appending one issue per element
whose begin count differs from its end count. -/
def envMsg (env : List Char) : List Char :=
  "Unmatched environment: ".toList ++ env

def envIssues (content : List Char) : List (List Char) :=
  let begins := findCmdArgs "\\begin".toList content
  let ends := findCmdArgs "\\end".toList content
  (begins.filter (fun env => begins.count env ≠ ends.count env)).map envMsg

/-- The undefined-reference issue: `\ref` targets with no matching `\label`.
Python iterates a `set`, whose order is unspecified; the model keeps first
occurrences in document order. -/
def refIssues (content : List Char) : List (List Char) :=
  let refs := (findCmdArgs "\\ref".toList content).dedup
  let labels := findCmdArgs "\\label".toList content
  let undefinedRefs := refs.filter (fun r => ¬ labels.contains r)
  if undefinedRefs ≠ [] then
    ["Undefined references: ".toList ++ pyJoin ", ".toList undefinedRefs]
  else []

/-- All validation issues of `_validate_latex`, in source order.  The brace
message interpolates the two counts via `Nat.repr`. -/
def validateContent (content : List Char) : List (List Char) :=
  (if ¬ containsSub "\\documentclass".toList content then
    ["Missing \\documentclass declaration".toList] else [])
  ++ (if ¬ containsSub "\\begin{document}".toList content then
    ["Missing \\begin{document}".toList] else [])
  ++ (if ¬ containsSub "\\end{document}".toList content then
    ["Missing \\end{document}".toList] else [])
  ++ (let openBraces := content.count '\x7b'
      let closeBraces := content.count '\x7d'
      if openBraces ≠ closeBraces then
        ["Unbalanced braces: ".toList ++ (Nat.repr openBraces).toList ++
          " opening, ".toList ++ (Nat.repr closeBraces).toList ++
          " closing".toList]
      else [])
  ++ envIssues content
  ++ refIssues content

/-! ## Structure analyzer (`_get_latex_structure`) -/

/-- The seven sectioning levels, in the fixed pattern order of the source. -/
inductive SecLevel where
  | part | chapter | sec | subsec | subsubsec | par | subpar
deriving DecidableEq

def levelRank : SecLevel → Nat
  | .part => 0 | .chapter => 1 | .sec => 2 | .subsec => 3
  | .subsubsec => 4 | .par => 5 | .subpar => 6

def levelName : SecLevel → List Char
  | .part => "Part".toList
  | .chapter => "Chapter".toList
  | .sec => "Section".toList
  | .subsec => "Subsection".toList
  | .subsubsec => "Subsubsection".toList
  | .par => "Paragraph".toList
  | .subpar => "Subparagraph".toList

/-- Pattern table `section_patterns`: (sectioning command, level), in source order. -/
def sectionPatterns : List (List Char × SecLevel) :=
  [("\\part".toList, .part), ("\\chapter".toList, .chapter),
   ("\\section".toList, .sec), ("\\subsection".toList, .subsec),
   ("\\subsubsection".toList, .subsubsec), ("\\paragraph".toList, .par),
   ("\\subparagraph".toList, .subpar)]

/-- The outline entries appended by the pattern loop: for each pattern in
order, all its matches in document order. -/
def structureEntries (content : List Char) : List (SecLevel × List Char) :=
  sectionPatterns.foldl
    (fun acc pl => acc ++ (findCmdArgs pl.1 content).map (fun nm => (pl.2, nm)))
    []

/-- A scan step for `re.search(r'CMD(?:\[[^\]]*\])?\{([^}]+)\}', t)` at the
head of `t`: the command, an optional maximal bracket group, then the brace
capture. -/
def tryCmdOptArg (cmd : List Char) (t : List Char) : Option (List Char × List Char) :=
  if cmd.isPrefixOf t then
    let rest := t.drop cmd.length
    let rest2 :=
      match rest with
      | '[' :: r =>
        let opts := r.takeWhile (fun c => c ≠ ']')
        if opts.length < r.length then r.drop (opts.length + 1) else rest
      | _ => rest
    match rest2 with
    | '\x7b' :: r =>
      let cap := r.takeWhile (fun c => c ≠ '\x7d')
      if cap ≠ [] ∧ cap.length < r.length then some (cap, r.drop (cap.length + 1))
      else none
    | _ => none
  else none

def findCmdOptArgsF (cmd : List Char) : Nat → List Char → List (List Char)
  | _, [] => []
  | 0, _ => []
  | fuel + 1, c :: cs =>
    match tryCmdOptArg cmd (c :: cs) with
    | some (cap, rest) => cap :: findCmdOptArgsF cmd fuel rest
    | none => findCmdOptArgsF cmd fuel cs

/-- All captures of `CMD(?:\[[^\]]*\])?\{([^}]+)\}` in document order. -/
def findCmdOptArgs (cmd : List Char) (t : List Char) : List (List Char) :=
  findCmdOptArgsF cmd t.length t

/-- The lines assembled by `_get_latex_structure` for the report body. -/
def docStructureLines (content : List Char) : List (List Char) :=
  (match (findCmdOptArgs "\\documentclass".toList content).head? with
   | some cls => ["Document class: ".toList ++ cls]
   | none => [])
  ++ (match (findCmdArgs "\\title".toList content).head? with
   | some ti => ["Title: ".toList ++ ti]
   | none => [])
  ++ (match (findCmdArgs "\\author".toList content).head? with
   | some au => ["Author: ".toList ++ au]
   | none => [])
  ++ ["\nDocument structure:".toList]
  ++ (structureEntries content).map
      (fun e => "  ".toList ++ levelName e.1 ++ ": ".toList ++ e.2)
  ++ (let packages := (findCmdOptArgs "\\usepackage".toList content).dedup
      if packages ≠ [] then
        ["\nPackages used: ".toList ++ pyJoin ", ".toList packages]
      else [])

/-! ## The six tool handlers, over the filesystem model

Each handler resolves its path first; a `ValueError` from `_get_file_path`
is caught by the handler's `except` clause and wrapped in the handler's own
error text, with no filesystem access.  The messages render the resolved
path (the source prints the possibly unresolved `path` object; both denote
the same file). -/

/-- Handler `_create_latex_file`. -/
def createLatexFile (basePath : List String) (p : PyPath)
    (documentType title author date content : List Char)
    (packages : List (List Char)) (geometry : List Char) (fs : FS) : OpResult :=
  match getFilePath basePath p with
  | .error e => (.error ("Error creating LaTeX file: ".toList ++ e), fs, [])
  | .ok path =>
    let latexContent :=
      createLatexTemplate documentType title author date content packages geometry
    (.ok ("Successfully created LaTeX file: ".toList ++ renderPath path ++
        "\n\nContent:\n".toList ++ latexContent),
     fsWrite fs path latexContent,
     [.mkdirEv path.dropLast, .writeEv path latexContent])

/-- Handler `_edit_latex_file`. -/
def editLatexFile (basePath : List String) (p : PyPath)
    (operation newText : List Char) (searchText : Option (List Char))
    (lineNumber : Option Int) (fs : FS) : OpResult :=
  match getFilePath basePath p with
  | .error e => (.error ("Error editing LaTeX file: ".toList ++ e), fs, [])
  | .ok path =>
    match fsRead fs path with
    | none => (.error ("File not found: ".toList ++ renderPath path), fs, [.statEv path])
    | some content =>
      match editCore content operation newText searchText lineNumber with
      | .error msg => (.error msg, fs, [.statEv path, .readEv path])
      | .ok newContent =>
        (.ok ("Successfully edited LaTeX file: ".toList ++ renderPath path ++
            "\n\nOperation: ".toList ++ operation ++ "\nFile updated.".toList),
         fsWrite fs path newContent,
         [.statEv path, .readEv path, .writeEv path newContent])

/-- Handler `_read_latex_file`. -/
def readLatexFile (basePath : List String) (p : PyPath) (fs : FS) : OpResult :=
  match getFilePath basePath p with
  | .error e => (.error ("Error reading LaTeX file: ".toList ++ e), fs, [])
  | .ok path =>
    match fsRead fs path with
    | none => (.error ("File not found: ".toList ++ renderPath path), fs, [.statEv path])
    | some content =>
      (.ok ("Contents of ".toList ++ renderPath path ++ ":\n\n".toList ++ content),
       fs, [.statEv path, .readEv path])

/-- Whether a resolved path names a `.tex` file. -/
def isTexPath (p : List String) : Bool :=
  match p.getLast? with
  | some nm => ".tex".toList.isSuffixOf nm.toList
  | none => false

/-- Handler `_list_latex_files`.  The flat file map cannot represent empty
directories, so a directory exists exactly when some file lies strictly
below it; file sizes and timestamps are not modelled, so each listing line
is just the path relative to the base (the source also shows a byte size).
When a listed file is not under `base_path`, `relative_to` raises and the
handler's `except` clause reports it. -/
def listLatexFiles (basePath : List String) (p : PyPath) (recursive : Bool)
    (fs : FS) : OpResult :=
  match getFilePath basePath p with
  | .error e => (.error ("Error listing LaTeX files: ".toList ++ e), fs, [])
  | .ok dirPath =>
    if ¬ fs.any (fun e => dirPath ≠ e.1 ∧ dirPath.isPrefixOf e.1) then
      (.error ("Directory not found: ".toList ++ renderPath dirPath), fs, [.statEv dirPath])
    else
      let texFiles := (fs.map (fun e => e.1)).filter (fun q =>
        dirPath.isPrefixOf q ∧ isTexPath q ∧
        (recursive ∨ q.length = dirPath.length + 1))
      if texFiles = [] then
        (.error ("No LaTeX files found in ".toList ++ renderPath dirPath), fs,
         [.statEv dirPath, .globEv dirPath])
      else if texFiles.any (fun q => ¬ basePath.isPrefixOf q) then
        (.error "Error listing LaTeX files: relative_to failed".toList, fs,
         [.statEv dirPath, .globEv dirPath])
      else
        (.ok ("LaTeX files in ".toList ++ renderPath dirPath ++ ":\n\n".toList ++
            pyJoin ['\n'] (texFiles.map (fun q =>
              "  ".toList ++ pyJoin ['/'] ((q.drop basePath.length).map String.toList)))),
         fs, [.statEv dirPath, .globEv dirPath])

/-- Handler `_validate_latex`. -/
def validateLatexFile (basePath : List String) (p : PyPath) (fs : FS) : OpResult :=
  match getFilePath basePath p with
  | .error e => (.error ("Error validating LaTeX file: ".toList ++ e), fs, [])
  | .ok path =>
    match fsRead fs path with
    | none => (.error ("File not found: ".toList ++ renderPath path), fs, [.statEv path])
    | some content =>
      let issues := validateContent content
      if issues ≠ [] then
        (.ok ("LaTeX validation issues found in ".toList ++ renderPath path ++
            ":\n\n".toList ++ pyJoin ['\n'] (issues.map (fun i => "- ".toList ++ i))),
         fs, [.statEv path, .readEv path])
      else
        (.ok ("LaTeX file ".toList ++ renderPath path ++
            " appears to be valid (basic checks passed)".toList),
         fs, [.statEv path, .readEv path])

/-- Handler `_get_latex_structure`. -/
def getLatexStructure (basePath : List String) (p : PyPath) (fs : FS) : OpResult :=
  match getFilePath basePath p with
  | .error e => (.error ("Error analyzing LaTeX structure: ".toList ++ e), fs, [])
  | .ok path =>
    match fsRead fs path with
    | none => (.error ("File not found: ".toList ++ renderPath path), fs, [.statEv path])
    | some content =>
      (.ok ("Structure of ".toList ++ renderPath path ++ ":\n\n".toList ++
          pyJoin ['\n'] (docStructureLines content)),
       fs, [.statEv path, .readEv path])

/-! ## Dispatch (`call_tool`) -/

/-- One tool invocation with its parsed arguments. -/
inductive ToolCall where
  | createCall (p : PyPath) (documentType title author date content : List Char)
      (packages : List (List Char)) (geometry : List Char)
  | editCall (p : PyPath) (operation newText : List Char)
      (searchText : Option (List Char)) (lineNumber : Option Int)
  | readCall (p : PyPath)
  | listCall (p : PyPath) (recursive : Bool)
  | validateCall (p : PyPath)
  | structureCall (p : PyPath)
  | unknownCall (nm : List Char)

/-- The dispatcher returns the handler's text verbatim (success and error
returns share the plain-text channel); an unrecognized name yields the
`Unknown tool` text with no handler invoked. -/
def callTool (basePath : List String) (tc : ToolCall) (fs : FS) :
    List Char × FS × List FSEvent :=
  match tc with
  | .createCall p dt ti au da co pk ge =>
    let r := createLatexFile basePath p dt ti au da co pk ge fs
    (match r.1 with | .ok m => m | .error m => m, r.2)
  | .editCall p op nt st ln =>
    let r := editLatexFile basePath p op nt st ln fs
    (match r.1 with | .ok m => m | .error m => m, r.2)
  | .readCall p =>
    let r := readLatexFile basePath p fs
    (match r.1 with | .ok m => m | .error m => m, r.2)
  | .listCall p rec =>
    let r := listLatexFiles basePath p rec fs
    (match r.1 with | .ok m => m | .error m => m, r.2)
  | .validateCall p =>
    let r := validateLatexFile basePath p fs
    (match r.1 with | .ok m => m | .error m => m, r.2)
  | .structureCall p =>
    let r := getLatexStructure basePath p fs
    (match r.1 with | .ok m => m | .error m => m, r.2)
  | .unknownCall nm => ("Unknown tool: ".toList ++ nm, fs, [])

/-! ## Ordered-containment machinery -/

/-- The fragments occur in `t`, in the given relative order (each one
starting at or after the end of the previous one). -/
def containsInOrder : List (List Char) → List Char → Prop
  | [], _ => True
  | f :: fs, t => ∃ pre suf, t = pre ++ f ++ suf ∧ containsInOrder fs suf

/-- Greedy decision procedure for `containsInOrder`: repeatedly cut at the
first occurrence of the next fragment. -/
def chkOrder : List (List Char) → List Char → Bool
  | [], _ => true
  | f :: fs, t =>
    match dropAfterFirst f t with
    | some r => chkOrder fs r
    | none => false

theorem isPrefixOf_iff_ex (s t : List Char) :
    s.isPrefixOf t = true ↔ ∃ u, t = s ++ u := by
  induction s generalizing t with
  | nil => simp [List.isPrefixOf]
  | cons a as ih =>
    cases t with
    | nil => simp [List.isPrefixOf]
    | cons b bs =>
      simp only [List.isPrefixOf, Bool.and_eq_true, beq_iff_eq, ih,
        List.cons_append, List.cons.injEq]
      constructor
      · rintro ⟨hab, u, hu⟩
        exact ⟨u, hab.symm, hu⟩
      · rintro ⟨u, hab, hu⟩
        exact ⟨hab.symm, u, hu⟩

theorem containsInOrder_prepend (fs : List (List Char)) (x t : List Char)
    (h : containsInOrder fs t) : containsInOrder fs (x ++ t) := by
  cases fs with
  | nil => trivial
  | cons f fs =>
    obtain ⟨pre, suf, ht, hrec⟩ := h
    exact ⟨x ++ pre, suf, by rw [ht]; simp, hrec⟩

theorem dropAfterFirst_sound (f t r : List Char)
    (h : dropAfterFirst f t = some r) : ∃ pre, t = pre ++ f ++ r := by
  induction t with
  | nil =>
    by_cases hf : f = ([] : List Char) <;>
      simp [dropAfterFirst, hf] at h
    subst hf; subst h; exact ⟨[], rfl⟩
  | cons c cs ih =>
    rw [dropAfterFirst] at h
    by_cases hp : f.isPrefixOf (c :: cs) = true
    · rw [if_pos hp] at h
      obtain ⟨u, hu⟩ := (isPrefixOf_iff_ex f (c :: cs)).mp hp
      refine ⟨[], ?_⟩
      simp only [Option.some.injEq] at h
      rw [hu, List.drop_left] at h
      simp [hu, h]
    · rw [if_neg hp] at h
      obtain ⟨pre, hpre⟩ := ih h
      exact ⟨c :: pre, by simp [hpre]⟩

theorem suffix_of_suffix_le (s r t : List Char)
    (hs : ∃ x, t = x ++ s) (hr : ∃ y, t = y ++ r) (hle : s.length ≤ r.length) :
    ∃ z, r = z ++ s := by
  obtain ⟨x, hx⟩ := hs
  obtain ⟨y, hy⟩ := hr
  have hxy : x ++ s = y ++ r := by rw [← hx, ← hy]
  have hlen : y.length ≤ x.length := by
    have := congrArg List.length hxy
    simp only [List.length_append] at this
    omega
  refine ⟨x.drop y.length, ?_⟩
  have h2 : (y ++ r).drop y.length = r := List.drop_left y r
  rw [← hxy] at h2
  rw [List.drop_append_of_le_length hlen] at h2
  exact h2.symm

theorem dropAfterFirst_complete (f pre suf : List Char) :
    ∃ r, dropAfterFirst f (pre ++ f ++ suf) = some r ∧ ∃ x, r = x ++ suf := by
  induction pre with
  | nil =>
    cases hfs : f ++ suf with
    | nil =>
      have hf : f = [] := by
        cases f with
        | nil => rfl
        | cons a as => simp at hfs
      subst hf
      simp only [List.nil_append] at hfs
      subst hfs
      exact ⟨[], by simp [dropAfterFirst], ⟨[], rfl⟩⟩
    | cons c cs =>
      have hp : f.isPrefixOf (f ++ suf) = true :=
        (isPrefixOf_iff_ex f (f ++ suf)).mpr ⟨suf, rfl⟩
      rw [hfs] at hp
      refine ⟨suf, ?_, ⟨[], rfl⟩⟩
      have hgoal : dropAfterFirst f (f ++ suf) = some suf := by
        rw [hfs, dropAfterFirst, if_pos hp, ← hfs, List.drop_left]
      simpa using hgoal
  | cons p ps ih =>
    obtain ⟨r, hr, x, hx⟩ := ih
    simp only [List.cons_append]
    rw [dropAfterFirst]
    by_cases hp : f.isPrefixOf (p :: (ps ++ f ++ suf)) = true
    · rw [if_pos hp]
      obtain ⟨u, hu⟩ := (isPrefixOf_iff_ex _ _).mp hp
      refine ⟨(p :: (ps ++ f ++ suf)).drop f.length, rfl, ?_⟩
      apply suffix_of_suffix_le suf _ (p :: (ps ++ f ++ suf))
      · exact ⟨p :: ps ++ f, by simp⟩
      · exact ⟨f, by rw [hu, List.drop_left]⟩
      · have := congrArg List.length hu
        simp only [List.length_cons, List.length_append, List.length_drop] at *
        omega
    · rw [if_neg hp]
      exact ⟨r, hr, x, hx⟩

theorem containsInOrder_iff_chkOrder (fs : List (List Char)) (t : List Char) :
    containsInOrder fs t ↔ chkOrder fs t = true := by
  induction fs generalizing t with
  | nil => simp [containsInOrder, chkOrder]
  | cons f fs ih =>
    constructor
    · rintro ⟨pre, suf, ht, hrec⟩
      subst ht
      obtain ⟨r, hr, x, hx⟩ := dropAfterFirst_complete f pre suf
      rw [chkOrder, hr]
      exact (ih r).mp (hx ▸ containsInOrder_prepend fs x suf hrec)
    · intro h
      rw [chkOrder] at h
      cases hd : dropAfterFirst f t with
      | none => rw [hd] at h; exact absurd h (by simp)
      | some r =>
        rw [hd] at h
        obtain ⟨pre, hpre⟩ := dropAfterFirst_sound f t r hd
        exact ⟨pre, r, hpre, (ih r).mpr h⟩

theorem containsInOrder_of_sublist (fs parts : List (List Char))
    (sep : List Char) (h : fs.Sublist parts) :
    containsInOrder fs (pyJoin sep parts) := by
  induction h with
  | slnil => trivial
  | @cons l₁ l₂ a _ ih =>
    cases l₂ with
    | nil =>
      have : l₁ = [] := List.sublist_nil.mp (by assumption)
      subst this; trivial
    | cons b bs =>
      rw [pyJoin]
      have := containsInOrder_prepend l₁ (a ++ sep) (pyJoin sep (b :: bs)) ih
      simpa using this
  | @cons₂ l₁ l₂ a hsub ih =>
    cases l₂ with
    | nil =>
      have : l₁ = [] := List.sublist_nil.mp hsub
      subst this
      exact ⟨[], [], by simp [pyJoin], trivial⟩
    | cons b bs =>
      rw [pyJoin]
      refine ⟨[], sep ++ pyJoin sep (b :: bs), by simp, ?_⟩
      exact containsInOrder_prepend l₁ sep (pyJoin sep (b :: bs)) ih

/-! ## C1: fragments of the article/Test/amsmath creation scenario -/

def c1Frag1 : List Char := "\\documentclass{article}".toList
def c1Frag2 : List Char := "\\usepackage[utf8]{inputenc}".toList
def c1Frag3 : List Char := "\\usepackage{amsmath}".toList
def c1Frag4 : List Char := "\\title{Test}".toList
def c1Frag5 : List Char := "\\maketitle".toList
def c1Frag6 : List Char := "\\begin{document}".toList
def c1Frag7 : List Char := "\\end{document}".toList

/-- The order asserted by the claim: `\maketitle` before `\begin{document}`. -/
def c1ClaimedFrags : List (List Char) :=
  [c1Frag1, c1Frag2, c1Frag3, c1Frag4, c1Frag5, c1Frag6, c1Frag7]

/-- The order the template actually emits: `\begin{document}` before
`\maketitle`. -/
def c1AmendedFrags : List (List Char) :=
  [c1Frag1, c1Frag2, c1Frag3, c1Frag4, c1Frag6, c1Frag5, c1Frag7]

/-- The text produced by the claim's call with the remaining arguments at
their schema defaults. -/
def c1Text : List Char :=
  createLatexTemplate "article".toList "Test".toList [] "\\today".toList []
    ["amsmath".toList] []

/-- C1 counterexample: for the call with document_type "article", title
"Test", packages ["amsmath"] (all other arguments at their defaults), the
generated document does NOT contain the seven fragments in the claimed
relative order, because `\maketitle` is emitted after `\begin{document}`,
not before it. -/
theorem c1_claimed_order_fails : ¬ containsInOrder c1ClaimedFrags c1Text := by
  rw [containsInOrder_iff_chkOrder]
  decide

/-- C1 (amended): for every create_latex_file call with document_type
"article", title "Test" and packages ["amsmath"], the generated text
contains `\documentclass{article}`, `\usepackage[utf8]{inputenc}`,
`\usepackage{amsmath}`, `\title{Test}`, `\begin{document}`, `\maketitle`
and `\end{document}`, in that relative order (so `\title{Test}` precedes
`\begin{document}`, which precedes `\maketitle`, which precedes
`\end{document}`). -/
theorem c1_create_contains_ordered (author date content geometry : List Char) :
    containsInOrder c1AmendedFrags
      (createLatexTemplate "article".toList "Test".toList author date content
        ["amsmath".toList] geometry) := by
  apply containsInOrder_of_sublist
  show ((((((((([c1Frag1] ++ []) ++ [c1Frag2, c1Frag3]) ++ [c1Frag4]) ++ [])
      ++ []) ++ [c1Frag6]) ++ [c1Frag5]) ++ []) ++ [c1Frag7]).Sublist
      (createLatexParts "article".toList "Test".toList author date content
        ["amsmath".toList] geometry)
  unfold createLatexParts
  refine List.Sublist.append (List.Sublist.append (List.Sublist.append
    (List.Sublist.append (List.Sublist.append (List.Sublist.append
    (List.Sublist.append (List.Sublist.append (List.Sublist.append
    ?_ ?_) ?_) ?_) ?_) ?_) ?_) ?_) ?_) ?_
  · decide
  · exact List.nil_sublist _
  · decide
  · decide
  · exact List.nil_sublist _
  · exact List.nil_sublist _
  · decide
  · decide
  · exact List.nil_sublist _
  · decide

/-! ## C4: append/prepend composition -/

/-- C4 counterexample (negation of the claim): there are NO content `X` and
texts `a`, `b` with `prepend(append(X,a),b) ≠ append(prepend(X,b),a)`; both
compositions produce `b + "\n" + X + "\n" + a`. -/
theorem c4_no_noncommuting_instance :
    ¬ ∃ (X a b : List Char),
      prependEdit (appendEdit X a) b ≠ appendEdit (prependEdit X b) a := by
  rintro ⟨X, a, b, h⟩
  exact h (by simp [appendEdit, prependEdit])

/-- C4 (amended): the two compositions always agree — applying append with
`a` then prepend with `b` yields exactly the same text as applying prepend
with `b` then append with `a`, for every content and inserted texts. -/
theorem c4_append_prepend_commute (X a b : List Char) :
    prependEdit (appendEdit X a) b = appendEdit (prependEdit X b) a := by
  simp [appendEdit, prependEdit]

/-! ## C8: the template builder as a function of the spec -/

/-- C8: `build` is a pure deterministic function of the TemplateSpec: two
invocations agreeing on document_type, title, author, date, content,
packages and geometry produce byte-identical output. -/
theorem c8_build_deterministic (s₁ s₂ : TemplateSpec)
    (h₁ : s₁.documentType = s₂.documentType) (h₂ : s₁.title = s₂.title)
    (h₃ : s₁.author = s₂.author) (h₄ : s₁.date = s₂.date)
    (h₅ : s₁.content = s₂.content) (h₆ : s₁.packages = s₂.packages)
    (h₇ : s₁.geometry = s₂.geometry) : buildTemplate s₁ = buildTemplate s₂ := by
  cases s₁
  cases s₂
  simp only at h₁ h₂ h₃ h₄ h₅ h₆ h₇
  subst h₁; subst h₂; subst h₃; subst h₄; subst h₅; subst h₆; subst h₇
  rfl

def c8Spec : TemplateSpec :=
  ⟨"article".toList, "T".toList, [], "\\today".toList, [], [], []⟩

/-- C8 witness: the determinism theorem applied at a concrete spec. -/
theorem c8_build_deterministic_witness : buildTemplate c8Spec = buildTemplate c8Spec :=
  c8_build_deterministic c8Spec c8Spec rfl rfl rfl rfl rfl rfl rfl

/-! ## C2: the environment-count check -/

theorem envMsg_injective : Function.Injective envMsg := by
  intro a b h
  exact List.append_cancel_left h

theorem count_map_inj (f : List Char → List Char) (hf : Function.Injective f)
    (l : List (List Char)) (a : List Char) : (l.map f).count (f a) = l.count a := by
  induction l with
  | nil => simp
  | cons x xs ih =>
    simp only [List.map_cons, List.count_cons, ih, beq_iff_eq]
    by_cases hx : x = a
    · simp [hx]
    · have : ¬ f x = f a := fun hc => hx (hf hc)
      simp [hx, this]

theorem count_filter_decide (p : List Char → Bool) (l : List (List Char))
    (a : List Char) : (l.filter p).count a = if p a then l.count a else 0 := by
  induction l with
  | nil => simp
  | cons x xs ih =>
    by_cases hpx : p x = true
    · rw [List.filter_cons_of_pos hpx]
      simp only [List.count_cons, ih, beq_iff_eq]
      by_cases hx : x = a
      · subst hx; simp [hpx]
      · simp [hx]
    · rw [List.filter_cons_of_neg hpx]
      simp only [List.count_cons, ih, beq_iff_eq]
      by_cases hx : x = a
      · subst hx; simp [hpx] at *
      · simp [hx]

def c2Content : List Char := "\\begin{a}\\begin{a}\\end{a}".toList
def c2EndOnly : List Char := "\\end{b}".toList

/-- C2 counterexample: for content `\begin{a}\begin{a}\end{a}` the begin
list is `[a, a]` and the end list `[a]`, so `a` is mismatched, yet the
check reports the "Unmatched environment: a" issue TWICE (once per element
of the begins list), not exactly once; and for content `\end{b}` the
mismatched name `b`, which occurs only in an `\end` command, is never
reported. -/
theorem c2_env_check_counterexample :
    findCmdArgs "\\begin".toList c2Content = [['a'], ['a']] ∧
    findCmdArgs "\\end".toList c2Content = [['a']] ∧
    envIssues c2Content = [envMsg ['a'], envMsg ['a']] ∧
    (envIssues c2Content).count (envMsg ['a']) ≠ 1 ∧
    envIssues c2EndOnly = [] := by
  decide

/-- C2 (amended): the environment check reports the "unmatched environment"
issue for a name once PER OCCURRENCE OF THAT NAME IN THE BEGIN LIST when
its begin-count differs from its end-count, and zero times otherwise; in
particular a name occurring only in `\end` commands is never reported, and
a mismatched name beginning `k` times is reported `k` times. -/
theorem c2_env_issue_count (content env : List Char) :
    (envIssues content).count (envMsg env) =
      if (findCmdArgs "\\begin".toList content).count env
          = (findCmdArgs "\\end".toList content).count env then 0
      else (findCmdArgs "\\begin".toList content).count env := by
  unfold envIssues
  generalize findCmdArgs "\\begin".toList content = bs
  generalize findCmdArgs "\\end".toList content = es
  rw [count_map_inj envMsg envMsg_injective, count_filter_decide]
  by_cases h : bs.count env = es.count env <;> simp [h]

/-! ## C6: `replace` rewrites every occurrence -/

theorem prefix_drop_decomp {s t : List Char} (h : s.isPrefixOf t = true) :
    t = s ++ t.drop s.length := by
  obtain ⟨u, hu⟩ := (isPrefixOf_iff_ex s t).mp h
  rw [hu, List.drop_left]

theorem pySplitF_ne_nil (s : List Char) (fuel : Nat) (t : List Char) :
    pySplitF s fuel t ≠ [] := by
  match fuel, t with
  | fuel, [] => simp [pySplitF]
  | 0, c :: cs => simp [pySplitF]
  | fuel + 1, c :: cs =>
    simp only [pySplitF]
    split
    · simp
    · split <;> simp

theorem pyJoin_pySplitF (s : List Char) (hs : s ≠ []) :
    ∀ (fuel : Nat) (t : List Char), t.length ≤ fuel →
      pyJoin s (pySplitF s fuel t) = t := by
  intro fuel
  induction fuel with
  | zero =>
    intro t ht
    have : t = [] := List.eq_nil_of_length_eq_zero (Nat.le_zero.mp ht)
    subst this
    simp [pySplitF, pyJoin]
  | succ fuel ih =>
    intro t ht
    cases t with
    | nil => simp [pySplitF, pyJoin]
    | cons c cs =>
      rw [pySplitF]
      by_cases hp : s ≠ [] ∧ s.isPrefixOf (c :: cs) = true
      · rw [if_pos hp]
        have hdecomp := prefix_drop_decomp hp.2
        have hs1 : 1 ≤ s.length := List.length_pos.mpr hs
        have hlen : ((c :: cs).drop s.length).length ≤ fuel := by
          simp only [List.length_drop, List.length_cons] at *
          omega
        cases hsplit : pySplitF s fuel ((c :: cs).drop s.length) with
        | nil => exact absurd hsplit (pySplitF_ne_nil s fuel _)
        | cons h t' =>
          have hrec := ih _ hlen
          rw [hsplit] at hrec
          rw [pyJoin]
          simp only [List.nil_append]
          rw [hrec]
          exact hdecomp.symm
      · rw [if_neg hp]
        have hcs : cs.length ≤ fuel := by
          simp only [List.length_cons] at ht
          omega
        have ihcs := ih cs hcs
        cases hsplit : pySplitF s fuel cs with
        | nil => exact absurd hsplit (pySplitF_ne_nil s fuel _)
        | cons h t' =>
          rw [hsplit] at ihcs
          cases t' with
          | nil =>
            simp only [pyJoin] at ihcs ⊢
            rw [ihcs]
          | cons h2 t2 =>
            rw [pyJoin] at ihcs ⊢
            simp only [List.cons_append, List.append_assoc] at *
            rw [ihcs]

theorem pyReplaceF_join (s n : List Char) (hs : s ≠ []) :
    ∀ (fuel : Nat) (t : List Char), t.length ≤ fuel →
      pyReplaceF s n fuel t = pyJoin n (pySplitF s fuel t) := by
  intro fuel
  induction fuel with
  | zero =>
    intro t ht
    have : t = [] := List.eq_nil_of_length_eq_zero (Nat.le_zero.mp ht)
    subst this
    simp [pySplitF, pyReplaceF, pyJoin]
  | succ fuel ih =>
    intro t ht
    cases t with
    | nil => simp [pySplitF, pyReplaceF, pyJoin]
    | cons c cs =>
      rw [pySplitF, pyReplaceF]
      by_cases hp : s ≠ [] ∧ s.isPrefixOf (c :: cs) = true
      · rw [if_pos hp, if_pos hp]
        have hs1 : 1 ≤ s.length := List.length_pos.mpr hs
        have hlen : ((c :: cs).drop s.length).length ≤ fuel := by
          simp only [List.length_drop, List.length_cons] at *
          omega
        cases hsplit : pySplitF s fuel ((c :: cs).drop s.length) with
        | nil => exact absurd hsplit (pySplitF_ne_nil s fuel _)
        | cons h t' =>
          have hrec := ih _ hlen
          rw [hsplit] at hrec
          rw [pyJoin]
          simp only [List.nil_append]
          rw [hrec]
      · rw [if_neg hp, if_neg hp]
        have hcs : cs.length ≤ fuel := by
          simp only [List.length_cons] at ht
          omega
        have ihcs := ih cs hcs
        cases hsplit : pySplitF s fuel cs with
        | nil => exact absurd hsplit (pySplitF_ne_nil s fuel _)
        | cons h t' =>
          rw [hsplit] at ihcs
          cases t' with
          | nil =>
            simp only [pyJoin] at ihcs ⊢
            rw [ihcs]
          | cons h2 t2 =>
            rw [pyJoin] at ihcs ⊢
            simp only [List.cons_append] at *
            rw [ihcs]

theorem pySplitF_length (s : List Char) (hs : s ≠ []) :
    ∀ (fuel : Nat) (t : List Char), t.length ≤ fuel →
      (pySplitF s fuel t).length = countOccF s fuel t + 1 := by
  intro fuel
  induction fuel with
  | zero =>
    intro t ht
    have : t = [] := List.eq_nil_of_length_eq_zero (Nat.le_zero.mp ht)
    subst this
    simp [pySplitF, countOccF]
  | succ fuel ih =>
    intro t ht
    cases t with
    | nil => simp [pySplitF, countOccF]
    | cons c cs =>
      rw [pySplitF, countOccF]
      by_cases hp : s ≠ [] ∧ s.isPrefixOf (c :: cs) = true
      · rw [if_pos hp, if_pos hp]
        have hs1 : 1 ≤ s.length := List.length_pos.mpr hs
        have hlen : ((c :: cs).drop s.length).length ≤ fuel := by
          simp only [List.length_drop, List.length_cons] at *
          omega
        simp only [List.length_cons]
        rw [ih _ hlen]
      · rw [if_neg hp, if_neg hp]
        have hcs : cs.length ≤ fuel := by
          simp only [List.length_cons] at ht
          omega
        have ihcs := ih cs hcs
        cases hsplit : pySplitF s fuel cs with
        | nil => exact absurd hsplit (pySplitF_ne_nil s fuel _)
        | cons h t' =>
          rw [hsplit] at ihcs
          simp only [List.length_cons] at ihcs ⊢
          exact ihcs

/-- C6: for non-empty search text, `replace` rewrites every occurrence:
the content decomposes as the `k+1` gap segments of `pySplit` joined by the
`k` occurrences of the search text (`k = countOcc`), and the result is the
same segments joined by the replacement instead; with `k = 0` the content
is returned unchanged; and a replace request without search_text fails with
the missing-field error (`editCore` performs no replacement then). -/
theorem c6_replace_all_occurrences (content s n : List Char) (hs : s ≠ []) :
    pyReplace s n content = pyJoin n (pySplit s content) ∧
    pyJoin s (pySplit s content) = content ∧
    (pySplit s content).length = countOcc s content + 1 ∧
    (countOcc s content = 0 → pyReplace s n content = content) ∧
    (∀ (newText : List Char) (ln : Option Int),
      editCore content "replace".toList newText none ln =
        .error "search_text is required for replace operation".toList) := by
  have h1 := pyReplaceF_join s n hs content.length content (Nat.le_refl _)
  have h2 := pyJoin_pySplitF s hs content.length content (Nat.le_refl _)
  have h3 := pySplitF_length s hs content.length content (Nat.le_refl _)
  refine ⟨h1, h2, h3, ?_, ?_⟩
  · intro hk
    unfold countOcc at hk
    rw [hk] at h3
    show pyReplaceF s n content.length content = content
    cases hsplit : pySplitF s content.length content with
    | nil => exact absurd hsplit (pySplitF_ne_nil s _ _)
    | cons u t' =>
      rw [hsplit] at h1 h2 h3
      cases t' with
      | nil =>
        simp only [pyJoin] at h1 h2
        rw [h1, h2]
      | cons v t2 => simp at h3
  · intro newText ln
    rfl

/-- C6 witness: the theorem at content "abcbcb", search "bc", new "X". -/
theorem c6_replace_witness :
    "bc".toList ≠ [] ∧
    (pyReplace "bc".toList "X".toList "abcbcb".toList =
        pyJoin "X".toList (pySplit "bc".toList "abcbcb".toList) ∧
      pyJoin "bc".toList (pySplit "bc".toList "abcbcb".toList) = "abcbcb".toList ∧
      (pySplit "bc".toList "abcbcb".toList).length =
        countOcc "bc".toList "abcbcb".toList + 1) ∧
    pyReplace "bc".toList "X".toList "abcbcb".toList = "aXXb".toList := by
  have h := c6_replace_all_occurrences "abcbcb".toList "bc".toList "X".toList
    (by decide)
  exact ⟨by decide, ⟨h.1, h.2.1, h.2.2.1⟩, by decide⟩

/-! ## C7: priority ordering of the outline -/

/-- The outline ordering relation: earlier entries never have a deeper
pattern rank than later ones. -/
def rankLe (a b : SecLevel × List Char) : Prop :=
  levelRank a.1 ≤ levelRank b.1

theorem fst_of_mem_tag {lvl : SecLevel} {args : List (List Char)}
    {x : SecLevel × List Char} (hx : x ∈ args.map (fun nm => (lvl, nm))) :
    x.1 = lvl := by
  obtain ⟨nm, -, h⟩ := List.mem_map.mp hx
  rw [← h]

theorem pairwise_tag_block (lvl : SecLevel) (args : List (List Char)) :
    List.Pairwise rankLe (args.map (fun nm => (lvl, nm))) := by
  induction args with
  | nil => simp
  | cons a as ih =>
    rw [List.map_cons, List.pairwise_cons]
    refine ⟨fun b hb => ?_, ih⟩
    unfold rankLe
    rw [fst_of_mem_tag hb]

theorem pairwise_append_rank {l₁ l₂ : List (SecLevel × List Char)}
    (h₁ : List.Pairwise rankLe l₁) (h₂ : List.Pairwise rankLe l₂)
    (hcross : ∀ a ∈ l₁, ∀ b ∈ l₂, rankLe a b) :
    List.Pairwise rankLe (l₁ ++ l₂) :=
  List.pairwise_append.mpr ⟨h₁, h₂, hcross⟩

theorem pairwise_foldl_blocks (content : List Char) :
    ∀ (ps : List (List Char × SecLevel)) (acc : List (SecLevel × List Char)),
      List.Pairwise rankLe acc →
      (∀ a ∈ acc, ∀ q ∈ ps, levelRank a.1 ≤ levelRank q.2) →
      List.Pairwise (fun p q => levelRank p.2 ≤ levelRank q.2) ps →
      List.Pairwise rankLe
        (ps.foldl (fun acc2 pl =>
          acc2 ++ (findCmdArgs pl.1 content).map (fun nm => (pl.2, nm))) acc) := by
  intro ps
  induction ps with
  | nil =>
    intro acc hacc _ _
    simpa using hacc
  | cons p ps ih =>
    intro acc hacc hcross hsort
    rw [List.foldl_cons]
    apply ih
    · apply pairwise_append_rank hacc (pairwise_tag_block p.2 _)
      intro a ha b hb
      unfold rankLe
      rw [fst_of_mem_tag hb]
      exact hcross a ha p (List.mem_cons_self p ps)
    · intro a ha q hq
      rcases List.mem_append.mp ha with h | h
      · exact hcross a h q (List.mem_cons_of_mem p hq)
      · rw [fst_of_mem_tag h]
        exact (List.pairwise_cons.mp hsort).1 q hq
    · exact (List.pairwise_cons.mp hsort).2

def c7Content : List Char := "\\section{A}\n\\chapter{B}".toList

/-- C7: the outline is ordered by pattern priority, not document position —
every entry's level rank is non-decreasing along the outline (all Part
entries precede all Chapter entries, and so on, entries of one level kept
in document order by the scan) — and concretely, for content with
`\section{A}` before `\chapter{B}`, the outline lists Chapter "B" before
Section "A". -/
theorem c7_structure_priority_order :
    (∀ content : List Char,
      List.Pairwise rankLe (structureEntries content)) ∧
    structureEntries c7Content =
      [(SecLevel.chapter, ['B']), (SecLevel.sec, ['A'])] := by
  constructor
  · intro content
    unfold structureEntries
    exact pairwise_foldl_blocks content sectionPatterns []
      List.Pairwise.nil
      (fun a ha => absurd ha (List.not_mem_nil a))
      (by decide)
  · decide

/-! ## C10: empty search_text is falsy -/

/-- C10: for every operation an empty search_text takes exactly the same
branches as an absent one (Python falsiness): `replace` fails with the
missing-field error, the insert operations fall through to the line-number
path, and append/prepend ignore it; an empty search_text never triggers a
replacement. -/
theorem c10_empty_search_as_absent (content operation newText : List Char)
    (ln : Option Int) :
    editCore content operation newText (some []) ln =
      editCore content operation newText none ln ∧
    editCore content "replace".toList newText (some []) ln =
      .error "search_text is required for replace operation".toList := by
  exact ⟨rfl, rfl⟩

/-! ## C9: failed edits leave the file untouched -/

/-- C9: whenever `_edit_latex_file` returns one of its error results (path
escape, file not found, missing search_text for replace, no usable
search_text or line_number for the inserts, or unknown operation), the
filesystem is returned exactly as it was: the single write happens only
after every check has passed. -/
theorem c9_edit_error_leaves_fs (basePath : List String) (p : PyPath)
    (operation newText : List Char) (searchText : Option (List Char))
    (lineNumber : Option Int) (fs : FS) (m : List Char)
    (h : (editLatexFile basePath p operation newText searchText lineNumber fs).1
      = .error m) :
    (editLatexFile basePath p operation newText searchText lineNumber fs).2.1
      = fs := by
  unfold editLatexFile at h ⊢
  cases hg : getFilePath basePath p with
  | error e => simp only [hg]
  | ok path =>
    simp only [hg] at h ⊢
    cases hr : fsRead fs path with
    | none => simp only [hr]
    | some content =>
      simp only [hr] at h ⊢
      cases he : editCore content operation newText searchText lineNumber with
      | error msg => simp only [he]
      | ok nc =>
        simp only [he] at h
        exact absurd h (by simp)

def c9Base : List String := ["home", "codes"]

def c9Path : PyPath := ⟨"missing.tex".toList, false, ["missing.tex"]⟩

/-- C9 witness: editing a missing file errors and leaves the (empty)
filesystem unchanged. -/
theorem c9_edit_error_witness :
    (editLatexFile c9Base c9Path "append".toList "x".toList none none []).1 =
      .error ("File not found: ".toList ++
        renderPath ["home", "codes", "missing.tex"]) ∧
    (editLatexFile c9Base c9Path "append".toList "x".toList none none []).2.1 =
      ([] : FS) :=
  ⟨by decide,
    c9_edit_error_leaves_fs c9Base c9Path "append".toList "x".toList none none []
      ("File not found: ".toList ++ renderPath ["home", "codes", "missing.tex"])
      (by decide)⟩

/-! ## C3: path escape blocks every operation before any I/O -/

/-- The `ValueError` text raised by `_get_file_path` for an escaping path. -/
def escapeMsg (basePath : List String) (p : PyPath) : List Char :=
  "Path ".toList ++ p.raw ++ " is outside the allowed base path (".toList ++
    renderPath basePath.dropLast ++ [')']

theorem getFilePath_escape (basePath : List String) (p : PyPath)
    (h : ¬ (basePath.dropLast.isPrefixOf (resolveReq basePath p) = true)) :
    getFilePath basePath p = .error (escapeMsg basePath p) := by
  unfold getFilePath escapeMsg
  simp only [if_neg h]

/-- C3: for every request whose resolved form lies outside the parent of
the configured base directory, each of the six file-touching operations
returns its handler-wrapped PathEscape error, leaves the filesystem
unchanged, and performs no filesystem access at all (empty event trace). -/
theorem c3_path_escape_no_io (basePath : List String) (p : PyPath)
    (h : ¬ (basePath.dropLast.isPrefixOf (resolveReq basePath p) = true)) :
    (∀ dt ti au da co pk ge fs,
      createLatexFile basePath p dt ti au da co pk ge fs =
        (.error ("Error creating LaTeX file: ".toList ++ escapeMsg basePath p),
         fs, [])) ∧
    (∀ operation newText st ln fs,
      editLatexFile basePath p operation newText st ln fs =
        (.error ("Error editing LaTeX file: ".toList ++ escapeMsg basePath p),
         fs, [])) ∧
    (∀ fs, readLatexFile basePath p fs =
        (.error ("Error reading LaTeX file: ".toList ++ escapeMsg basePath p),
         fs, [])) ∧
    (∀ recursive fs, listLatexFiles basePath p recursive fs =
        (.error ("Error listing LaTeX files: ".toList ++ escapeMsg basePath p),
         fs, [])) ∧
    (∀ fs, validateLatexFile basePath p fs =
        (.error ("Error validating LaTeX file: ".toList ++ escapeMsg basePath p),
         fs, [])) ∧
    (∀ fs, getLatexStructure basePath p fs =
        (.error ("Error analyzing LaTeX structure: ".toList ++ escapeMsg basePath p),
         fs, [])) := by
  have hg := getFilePath_escape basePath p h
  refine ⟨?_, ?_, ?_, ?_, ?_, ?_⟩
  · intro dt ti au da co pk ge fs
    unfold createLatexFile
    simp only [hg]
  · intro operation newText st ln fs
    unfold editLatexFile
    simp only [hg]
  · intro fs
    unfold readLatexFile
    simp only [hg]
  · intro recursive fs
    unfold listLatexFiles
    simp only [hg]
  · intro fs
    unfold validateLatexFile
    simp only [hg]
  · intro fs
    unfold getLatexStructure
    simp only [hg]

def c3Path : PyPath := ⟨"/etc/passwd".toList, true, ["etc", "passwd"]⟩

/-- C3 witness: an absolute path outside the allowed root is rejected by
the create and read operations with no filesystem change or access. -/
theorem c3_path_escape_witness :
    ¬ ((["home", "codes"] : List String).dropLast.isPrefixOf
        (resolveReq ["home", "codes"] c3Path) = true) ∧
    createLatexFile ["home", "codes"] c3Path [] [] [] [] [] [] [] [] =
      (.error ("Error creating LaTeX file: ".toList ++
        escapeMsg ["home", "codes"] c3Path), ([] : FS), []) ∧
    readLatexFile ["home", "codes"] c3Path [] =
      (.error ("Error reading LaTeX file: ".toList ++
        escapeMsg ["home", "codes"] c3Path), ([] : FS), []) := by
  have h : ¬ ((["home", "codes"] : List String).dropLast.isPrefixOf
      (resolveReq ["home", "codes"] c3Path) = true) := by decide
  have hc := c3_path_escape_no_io ["home", "codes"] c3Path h
  exact ⟨h, hc.1 [] [] [] [] [] [] [] [], hc.2.2.1 []⟩

/-! ## C5: error messages and their prefixes -/

/-- C5 counterexample: the failing invocation of an unknown tool returns
"Unknown tool: bogus", which does not begin with "Error: ", so the uniform
prefix claimed for every failure does not exist. -/
theorem c5_unknown_tool_not_error_prefixed :
    (callTool ["home", "codes"] (.unknownCall "bogus".toList) []).1 =
      "Unknown tool: bogus".toList ∧
    "Error: ".toList.isPrefixOf
      (callTool ["home", "codes"] (.unknownCall "bogus".toList) []).1 = false := by
  decide

/-- C5 (amended): failures are signalled by fixed per-mode message shapes,
not one uniform "Error: " prefix: an unknown tool yields "Unknown tool: ",
a missing edit target "File not found: ", a replace without search_text
"search_text is required for replace operation", an unrecognized edit
operation "Unknown operation: ", a path escape during edit "Error editing
LaTeX file: ", and any error text produced inside `_edit_latex_file` is
returned verbatim on the same plain-text channel as successes; a caller
must match these shapes, since the bare "Error: " prefix only marks
exceptions that escape a handler into the dispatcher. -/
theorem c5_failure_message_shapes (basePath : List String) (fs : FS) :
    (∀ nm, (callTool basePath (.unknownCall nm) fs).1 =
      "Unknown tool: ".toList ++ nm) ∧
    (∀ p operation newText st ln path,
      getFilePath basePath p = .ok path → fsRead fs path = none →
      (callTool basePath (.editCall p operation newText st ln) fs).1 =
        "File not found: ".toList ++ renderPath path) ∧
    (∀ p newText ln path content,
      getFilePath basePath p = .ok path → fsRead fs path = some content →
      (callTool basePath (.editCall p "replace".toList newText none ln) fs).1 =
        "search_text is required for replace operation".toList) ∧
    (∀ content operation newText st ln,
      operation ≠ "replace".toList → operation ≠ "insert_before".toList →
      operation ≠ "insert_after".toList → operation ≠ "append".toList →
      operation ≠ "prepend".toList →
      editCore content operation newText st ln =
        .error ("Unknown operation: ".toList ++ operation)) ∧
    (∀ p operation newText st ln,
      ¬ (basePath.dropLast.isPrefixOf (resolveReq basePath p) = true) →
      (callTool basePath (.editCall p operation newText st ln) fs).1 =
        "Error editing LaTeX file: ".toList ++ escapeMsg basePath p) ∧
    (∀ p operation newText st ln path content msg,
      getFilePath basePath p = .ok path → fsRead fs path = some content →
      editCore content operation newText st ln = .error msg →
      (callTool basePath (.editCall p operation newText st ln) fs).1 = msg) := by
  refine ⟨fun nm => rfl, ?_, ?_, ?_, ?_, ?_⟩
  · intro p operation newText st ln path hok hread
    unfold callTool editLatexFile
    simp only [hok, hread]
  · intro p newText ln path content hok hread
    unfold callTool editLatexFile
    simp only [hok, hread]
    rfl
  · intro content operation newText st ln h1 h2 h3 h4 h5
    unfold editCore
    rw [if_neg h1, if_neg h2, if_neg h3, if_neg h4, if_neg h5]
  · intro p operation newText st ln h
    unfold callTool editLatexFile
    simp only [getFilePath_escape basePath p h]
  · intro p operation newText st ln path content msg hok hread hcore
    unfold callTool editLatexFile
    simp only [hok, hread, hcore]

def c5Fs : FS := [(["home", "codes", "doc.tex"], ['x'])]

/-- C5 witness: the amended message shapes at concrete inputs — a missing
file, a replace without search_text, an unknown operation, and a path
escape. -/
theorem c5_failure_message_shapes_witness :
    (callTool ["home", "codes"] (.unknownCall "zap".toList) c5Fs).1 =
      "Unknown tool: zap".toList ∧
    (callTool ["home", "codes"]
        (.editCall c9Path "append".toList ['y'] none none) c5Fs).1 =
      "File not found: ".toList ++ renderPath ["home", "codes", "missing.tex"] ∧
    (callTool ["home", "codes"]
        (.editCall ⟨"doc.tex".toList, false, ["doc.tex"]⟩ "replace".toList
          ['y'] none none) c5Fs).1 =
      "search_text is required for replace operation".toList ∧
    editCore ['x'] "nope".toList ['y'] none none =
      .error "Unknown operation: nope".toList ∧
    (callTool ["home", "codes"]
        (.editCall c3Path "append".toList ['y'] none none) c5Fs).1 =
      "Error editing LaTeX file: ".toList ++ escapeMsg ["home", "codes"] c3Path := by
  have h := c5_failure_message_shapes ["home", "codes"] c5Fs
  refine ⟨h.1 "zap".toList, ?_, ?_, ?_, ?_⟩
  · exact h.2.1 c9Path "append".toList ['y'] none none
      ["home", "codes", "missing.tex"] (by decide) (by decide)
  · exact h.2.2.1 ⟨"doc.tex".toList, false, ["doc.tex"]⟩ ['y'] none
      ["home", "codes", "doc.tex"] ['x'] (by decide) (by decide)
  · exact h.2.2.2.1 ['x'] "nope".toList ['y'] none none
      (by decide) (by decide) (by decide) (by decide) (by decide)
  · exact h.2.2.2.2.1 c3Path "append".toList ['y'] none none (by decide)
